import Mathlib

/-!
Verification of the publish-decision and consistency-validation logic of
src/packages/types-publisher/src/publish-registry.ts.

The embedding models the pure decision logic of that file directly.  External
collaborators (npm client, filesystem, logging) appear only through their
observable effect on control flow: fallible steps are `Except String`, calls
with external side effects are recorded as `Action` values, wall-clock time is
an `Int` count of milliseconds since the epoch, and JS `Map`/object data is
modelled as association lists (a JS map never holds a duplicate key, so
theorems that depend on key uniqueness take an explicit no-duplicate
hypothesis).

The `Semver` component (lib/versions) and the helpers `best` and `assertDefined`
(util/util) are not part of src/; those definitions are modelled from the spec,
as marked in their doc comments.  Everything else is translated from
publish-registry.ts, with source line numbers cited.
-/

/-- Result test for the `Except` embedding of code that can throw. -/
def exceptIsOk {α : Type} : Except String α → Bool
  | .ok _ => true
  | .error _ => false

theorem exceptIsOk_eq_true {α : Type} {e : Except String α} :
    exceptIsOk e = true ↔ ∃ a, e = .ok a := by
  cases e <;> simp [exceptIsOk]

theorem string_append_empty (s : String) : s ++ "" = s := by
  cases s with
  | mk l => show String.mk (l ++ []) = String.mk l; rw [List.append_nil]

/-- Strict lexicographic order on character lists by code point, the model of
the native JS relational comparison of two strings.  (JS compares UTF-16 code
units; the two orders agree on all strings the registry handles and no claim
exercises code points beyond the basic plane.) -/
def strLtB : List Char → List Char → Bool
  | [], [] => false
  | [], _ :: _ => true
  | _ :: _, [] => false
  | a :: as, b :: bs =>
    if a.toNat < b.toNat then true
    else if b.toNat < a.toNat then false
    else strLtB as bs

theorem strLtB_irrefl : ∀ cs : List Char, strLtB cs cs = false := by
  intro cs
  induction cs with
  | nil => rfl
  | cons a as ih => simp [strLtB, ih]

/-- Model of the native JS `>=`-style comparison on strings, as used by the
fallback branch of assertJsonNewer: `a` is less than or equal to `b`. -/
def jsStringLe (a b : String) : Bool := !(strLtB b.data a.data)

theorem lookup_mem {β : Type} : ∀ {l : List (String × β)} {k : String} {v : β},
    l.lookup k = some v → (k, v) ∈ l := by
  intro l
  induction l with
  | nil => intro k v h; simp [List.lookup] at h
  | cons hd tl ih =>
    intro k v h
    rw [List.lookup] at h
    split at h
    · next heq =>
      cases h
      have : k = hd.1 := by simpa using heq
      subst this
      exact List.mem_cons_self _ _
    · exact List.mem_cons_of_mem _ (ih h)

/-- Modelled from the spec: the Semver data model of VersionArithmetic
(lib/versions is not under src/).  A version is a dotted triple of
non-negative integers plus an optional suffix kept as an opaque string
(empty when absent). -/
structure Semver where
  major : Nat
  minor : Nat
  patch : Nat
  tail : String
deriving DecidableEq, Repr

/-- Modelled from the spec: digits of one dot-separated component.  Accepts a
non-empty all-digit character list. -/
def parseNat : List Char → Option Nat
  | [] => none
  | cs =>
    if cs.all (fun c => c.isDigit) then
      some (cs.foldl (fun acc c => acc * 10 + (c.toNat - 48)) 0)
    else none

/-- Splitting a character list at every dot, accumulator-style. -/
def splitDotsAux : List Char → List Char → List (List Char)
  | [], acc => [acc.reverse]
  | c :: rest, acc =>
    if c = '.' then acc.reverse :: splitDotsAux rest []
    else splitDotsAux rest (c :: acc)

/-- Modelled from the spec: parseTolerant of VersionArithmetic.  Returns no
value unless the string is a dotted triple of non-negative integers, with an
optional non-numeric suffix after the patch digits. -/
def Semver.tryParse (s : String) : Option Semver :=
  match splitDotsAux s.data [] with
  | [a, b, c] =>
    match parseNat a, parseNat b, parseNat (c.takeWhile (fun ch => ch.isDigit)) with
    | some major, some minor, some patch =>
      some ⟨major, minor, patch, String.mk (c.dropWhile (fun ch => ch.isDigit))⟩
    | _, _, _ => none
  | _ => none

/-- Modelled from the spec: the strict comparison of VersionArithmetic,
lexicographic on (major, minor, patch) with equal triples compared on the
opaque tail by native string ordering. -/
def Semver.greaterThan (a b : Semver) : Bool :=
  if a.major ≠ b.major then decide (b.major < a.major)
  else if a.minor ≠ b.minor then decide (b.minor < a.minor)
  else if a.patch ≠ b.patch then decide (b.patch < a.patch)
  else strLtB b.tail.data a.tail.data

/-- Modelled from the spec: version equality. -/
def Semver.equals (a b : Semver) : Bool := decide (a = b)

/-- Modelled from the spec: rendering of a version back to its string. -/
def Semver.versionString (v : Semver) : String :=
  toString v.major ++ "." ++ toString v.minor ++ "." ++ toString v.patch ++ v.tail

/-- Modelled from the spec: nextPatch increments the patch component and
changes nothing else. -/
def Semver.nextPatch (v : Semver) : Semver := { v with patch := v.patch + 1 }

/-- Snapshot of the remote registry package computed by fetchAndProcessNpmInfo
(publish-registry.ts lines 250-255).  lastModified is milliseconds since the
epoch. -/
structure ProcessedNpmInfo where
  npmVersion : Semver
  highestSemverVersion : Semver
  npmContentHash : String
  lastModified : Int
deriving DecidableEq, Repr

/-- Constant from publish-registry.ts line 80. -/
def millisecondsPerDay : Int := 1000 * 60 * 60 * 24

/-- Translation of isSevenDaysAfter (publish-registry.ts lines 81-85).  The
source computes `(Date.now() - time.getTime()) / millisecondsPerDay > 7` in
floating point; for whole-millisecond differences that holds exactly when the
difference strictly exceeds seven days of milliseconds, which is the form used
here. -/
def isSevenDaysAfter (now time : Int) : Bool :=
  decide (7 * millisecondsPerDay < now - time)

/-- Decision of the publish engine: exactly one of the three actions taken by
publishToRegistry (publish-registry.ts lines 60-75). -/
inductive Decision where
  | rePromote (version : Semver)
  | publishNew (version : String)
  | noOp (reason : String)
deriving DecidableEq, Repr

/-- Translation of the newVersion template of publish-registry.ts line 42:
the literal prefix 0.1. followed by the incremented patch number. -/
def newVersionString (npmVersion : Semver) : String :=
  "0.1." ++ toString (npmVersion.patch + 1)

/-- Translation of the branch structure of publishToRegistry
(publish-registry.ts lines 60-75), with the condition of line 67 using the
newContentHash of line 41 and the seven-day test of line 43. -/
def publishDecision (info : ProcessedNpmInfo) (newContentHash : String) (now : Int) : Decision :=
  if !(info.highestSemverVersion.equals info.npmVersion) then
    .rePromote info.highestSemverVersion
  else if info.npmContentHash != newContentHash && isSevenDaysAfter now info.lastModified then
    .publishNew (newVersionString info.npmVersion)
  else
    .noOp (if info.npmContentHash == newContentHash then "No new packages published"
           else "Was modified less than a week ago")

/-- Externally visible steps of one channel of the publish workflow, in the
order the source awaits them. -/
inductive WorkflowAction where
  | generate
  | validateSubset
  | publishPackage
  | sleep60
  | validate
  | tag (version : String) (tagName : String)
deriving DecidableEq, Repr

/-- Call sequence of publishToRegistry (publish-registry.ts lines 54-76):
generate always runs first (line 57); the rePromote branch validates the
subset then moves the latest tag (lines 65-66); the publishNew branch runs
publish, which uploads, sleeps 60 seconds, validates and then tags
(lines 106-118); the noOp branch still validates (line 74). -/
def publishToRegistry (info : ProcessedNpmInfo) (newContentHash : String) (now : Int) : List WorkflowAction :=
  WorkflowAction.generate ::
    (match publishDecision info newContentHash now with
     | .rePromote v => [.validateSubset, .tag v.versionString "latest"]
     | .publishNew s => [.publishPackage, .sleep60, .validate, .tag s "latest"]
     | .noOp _ => [.validate])

/-- Name constant from publish-registry.ts line 15. -/
def typesRegistry : String := "types-registry"

/-- Target channels of the publish workflow (publish-registry.ts line 54). -/
inductive RegistryName where
  | github
  | npm
deriving DecidableEq, Repr, Fintype

/-- Package name per channel (publish-registry.ts line 55). -/
def packageNameFor : RegistryName → String
  | .github => "@definitelytyped/" ++ typesRegistry
  | .npm => typesRegistry

/-- Manifest generated per channel and publish attempt. -/
structure PackageJson where
  name : String
  version : String
  description : String
  repositoryUrl : String
  keywords : List String
  author : String
  license : String
  typesPublisherContentHash : String
  publishConfig : Option String
deriving DecidableEq, Repr

/-- Translation of generatePackageJson (publish-registry.ts lines 189-215):
the repository URL depends on the channel, and publishConfig is added only
for the github channel (lines 211-213). -/
def generatePackageJson (name : String) (registryName : RegistryName) (version : String)
    (typesPublisherContentHash : String) : PackageJson :=
  { name := name
    version := version
    description := "A registry of TypeScript declaration file packages published within the @types scope."
    repositoryUrl :=
      match registryName with
      | .github => "https://github.com/DefinitelyTyped/DefinitelyTyped.git"
      | .npm => "https://github.com/Microsoft/types-publisher.git"
    keywords := ["TypeScript", "declaration", "files", "types", "packages"]
    author := "Microsoft Corp."
    license := "MIT"
    typesPublisherContentHash := typesPublisherContentHash
    publishConfig :=
      match registryName with
      | .github => some "https://npm.pkg.github.com/"
      | .npm => none }

/-- Translation of the channel sequencing of publishRegistry
(publish-registry.ts lines 45-51): the github call is wrapped in try/catch
and its failure only appends a log line (line 49), the npm call runs
afterwards in all cases and its failure propagates.  The body of one
channel run is abstracted as a fallible action, and the returned list holds
the log lines produced by the catch handler. -/
def publishRegistryChannels (attempt : RegistryName → Except String Unit) :
    Except String (List String) :=
  match attempt .github with
  | .ok _ =>
    match attempt .npm with
    | .ok _ => .ok []
    | .error e => .error e
  | .error e =>
    match attempt .npm with
    | .ok _ => .ok ["publishing to github failed: " ++ e]
    | .error e2 => .error e2

/-- Channel whose isolated failure is swallowed by publishRegistry: the run
where exactly this channel fails still ends without an uncaught error. -/
def swallowedChannel (c : RegistryName) : Bool :=
  exceptIsOk (publishRegistryChannels (fun c2 => if c2 == c then .error "failure" else .ok ()))

/-- Presence of publishConfig on the manifest generated for a channel; by
generatePackageJson it depends only on the channel. -/
def manifestHasPublishConfig (c : RegistryName) : Bool :=
  (generatePackageJson (packageNameFor c) c "0.1.1" "hash").publishConfig.isSome

/-- Registry document shape (publish-registry.ts lines 217-223): package name
to dist-tag map. -/
structure Registry where
  entries : List (String × List (String × String))
deriving DecidableEq, Repr

/-- Translation of filterTags (publish-registry.ts lines 237-247): keep a tag
when it is the latest tag itself or its version differs from the version the
latest tag points to (a missing latest tag makes latestVersion undefined, so
every comparison against it differs). -/
def filterTags (tags : List (String × String)) : List (String × String) :=
  tags.filter (fun p => p.1 == "latest" || !(some p.2 == tags.lookup "latest"))

/-- Input package record: only the display name and the escaped npm name are
consumed by generateRegistry. -/
structure TypingsData where
  name : String
  fullEscapedNpmName : String
deriving DecidableEq, Repr

/-- Translation of generateRegistry (publish-registry.ts lines 224-236): if
any package misses the npm cache the whole build fails with a message
enumerating every missing package, otherwise each package contributes its
filtered dist-tag map keyed by its name.  The source throws at the first
missing package but builds the message from the whole list, so the
observable behaviour is as modelled; in the success branch every cache
lookup is known to produce a value, so the default never applies. -/
def generateRegistry (typings : List TypingsData)
    (cache : String → Option (List (String × String))) : Except String Registry :=
  if typings.any (fun t => (cache t.fullEscapedNpmName).isNone) then
    .error (String.intercalate ","
        ((typings.filter (fun t => (cache t.fullEscapedNpmName).isNone)).map
          (fun t => t.fullEscapedNpmName)) ++ " not found in cached npm info.")
  else
    .ok ⟨typings.map (fun t => (t.name, filterTags ((cache t.fullEscapedNpmName).getD [])))⟩

/-- Record of a not-needed package; validateIsSubset consumes only its name
(the full class lives in lib/packages, outside src/). -/
structure NotNeededPackage where
  name : String
deriving DecidableEq, Repr

/-- Loop body of validateIsSubset over the keys of the installed registry. -/
def validateIsSubsetGo (notNeeded : List NotNeededPackage) (expected : Registry) :
    List (String × List (String × String)) → Except String Unit
  | [] => .ok ()
  | (key, _) :: rest =>
    if !(expected.entries.any (fun p => p.1 == key)) && !(notNeeded.any (fun p => p.name == key)) then
      .error ("Actual types-registry has unexpected key " ++ key)
    else validateIsSubsetGo notNeeded expected rest

/-- Translation of validateIsSubset (publish-registry.ts lines 150-160):
every key of the installed (actual) registry must be a key of the locally
generated (expected) registry or the name of a not-needed package. -/
def validateIsSubset (notNeeded : List NotNeededPackage) (actual expected : Registry) :
    Except String Unit :=
  validateIsSubsetGo notNeeded expected actual.entries

/-- Raw npm metadata consumed by fetchAndProcessNpmInfo: dist-tags, the
version map carrying the optional typesPublisherContentHash of each version,
and the modified time in epoch milliseconds. -/
structure NpmInfo where
  distTags : List (String × String)
  versions : List (String × Option String)
  timeModified : Int
deriving DecidableEq, Repr

/-- Modelled from the spec: the best helper of util/util as used by
getLatestVersion, returning the maximum of the list under the strict
comparison. -/
def best (candidates : List Semver) : Option Semver :=
  candidates.foldl
    (fun acc v =>
      match acc with
      | none => some v
      | some b => if v.greaterThan b then some v else some b)
    none

/-- Translation of getLatestVersion (publish-registry.ts lines 266-268):
parse every version tolerantly, drop the failures, take the maximum. -/
def getLatestVersion (versions : List String) : Option Semver :=
  best (versions.filterMap Semver.tryParse)

/-- Translation of fetchAndProcessNpmInfo (publish-registry.ts lines 257-265):
the latest dist-tag must exist and parse, some published version must parse,
the next dist-tag must equal the highest published version (the
assert.strictEqual of line 262), and the latest version must appear in the
versions map; its missing content hash defaults to the empty string. -/
def fetchAndProcessNpmInfo (info : NpmInfo) : Except String ProcessedNpmInfo :=
  match info.distTags.lookup "latest" with
  | none => .error "assertDefined: the latest dist-tag is missing"
  | some latestStr =>
    match Semver.tryParse latestStr with
    | none => .error ("Unexpected semver: " ++ latestStr)
    | some npmVersion =>
      match getLatestVersion (info.versions.map Prod.fst) with
      | none => .error "getLatestVersion: no published version parses as a semver"
      | some highestSemverVersion =>
        if info.distTags.lookup "next" = some highestSemverVersion.versionString then
          match info.versions.lookup npmVersion.versionString with
          | none => .error ("the version " ++ npmVersion.versionString ++ " tagged latest is not in the versions map")
          | some contentHash =>
            .ok ⟨npmVersion, highestSemverVersion, contentHash.getD "", info.timeModified⟩
        else .error "assert.strictEqual: the next dist-tag does not equal the highest published version"

/-- Translation of the entry of publishRegistry (publish-registry.ts lines
33-36): fetch and process the npm info, then assert that the version tagged
latest has major 0 and minor 1. -/
def publishRegistryInfoChecks (info : NpmInfo) : Except String ProcessedNpmInfo :=
  match fetchAndProcessNpmInfo info with
  | .error e => .error e
  | .ok p =>
    if p.npmVersion.major = 0 then
      if p.npmVersion.minor = 1 then .ok p
      else .error "AssertionError: npmVersion.minor is not 1"
    else .error "AssertionError: npmVersion.major is not 0"

/-- JSON documents handled by assertJsonNewer, as the closed tagged union of
the runtime shapes the source dispatches on: string, number, boolean and
nested object.  Objects are association lists of entries. -/
inductive JsonValue where
  | str (s : String)
  | num (n : Int)
  | bool (b : Bool)
  | obj (entries : List (String × JsonValue))

/-- Rendering of a value inside an assertion message, following JS template
interpolation. -/
def JsonValue.render : JsonValue → String
  | .str s => s
  | .num n => toString n
  | .bool b => if b then "true" else "false"
  | .obj _ => "[object Object]"

/-- String comparison rule of the string case of assertJsonNewer
(publish-registry.ts lines 170-174): parse both sides tolerantly as versions;
when both parse, the newer side must be greater than or equal to the older
side by the version comparison, otherwise fall back to native string
ordering. -/
def semverStringCond (ns os : String) : Bool :=
  match Semver.tryParse ns, Semver.tryParse os with
  | some nv, some ov => nv.greaterThan ov || nv.equals ov
  | _, _ => jsStringLe os ns

mutual
/-- Translation of assertJsonNewer (publish-registry.ts lines 162-187) on two
object bodies.  The walk visits every key of the older document in order; a
key missing from the newer document is logged as deprecated and skipped
(lines 164-166); for a present key the newer value decides the comparison
rule; the first failed assertion aborts the walk with its message.  The ok
result carries the deprecation log lines in the order they are emitted. -/
def assertJsonNewer (newer older : List (String × JsonValue)) (parent : String) :
    Except String (List String) :=
  match older with
  | [] => .ok []
  | (key, oldv) :: rest =>
    match newer.lookup key with
    | none =>
      match assertJsonNewer newer rest parent with
      | .ok logs =>
        .ok ((key ++ " in " ++ parent ++ " was not found in newer -- assumed to be deprecated.") :: logs)
      | .error e => .error e
    | some newv =>
      match checkValue newv oldv key parent with
      | .error e => .error e
      | .ok logs1 =>
        match assertJsonNewer newer rest parent with
        | .error e => .error e
        | .ok logs2 => .ok (logs1 ++ logs2)
/-- Per-key comparison of assertJsonNewer, dispatching on the shape of the
newer value (publish-registry.ts lines 168-185).  A string newer value
against a non-string older value would hand a non-string to the external
Semver.tryParse and then to JS coercion, and a number against a non-number
would compare across types; neither case is exercised by any claim and both
are modelled as failing.  A boolean against a non-boolean fails the strict
equality of line 181 exactly as in the source.  An object against a
primitive number or boolean recurses into an empty key set in the source
(Object.keys of such a primitive is empty), modelled as success; index keys
of a bare string are likewise modelled as absent. -/
def checkValue (newv oldv : JsonValue) (key parent : String) : Except String (List String) :=
  match newv with
  | .str ns =>
    match oldv with
    | .str os =>
      if semverStringCond ns os then .ok []
      else .error (key ++ " in " ++ parent ++ " did not match: newer[key] (" ++ ns ++ ") < older[key] (" ++ os ++ ")")
    | _ =>
      .error (key ++ " in " ++ parent ++ " did not match: newer[key] (" ++ JsonValue.render (.str ns) ++ ") < older[key] (" ++ oldv.render ++ ")")
  | .num n =>
    match oldv with
    | .num o =>
      if o ≤ n then .ok []
      else .error (key ++ " in " ++ parent ++ " did not match: newer[key] (" ++ toString n ++ ") < older[key] (" ++ toString o ++ ")")
    | _ =>
      .error (key ++ " in " ++ parent ++ " did not match: newer[key] (" ++ JsonValue.render (.num n) ++ ") < older[key] (" ++ oldv.render ++ ")")
  | .bool b =>
    match oldv with
    | .bool o =>
      if b = o then .ok []
      else .error (key ++ " in " ++ parent ++ " did not match: newer[key] (" ++ JsonValue.render (.bool b) ++ ") !== older[key] (" ++ JsonValue.render (.bool o) ++ ")")
    | _ =>
      .error (key ++ " in " ++ parent ++ " did not match: newer[key] (" ++ JsonValue.render (.bool b) ++ ") !== older[key] (" ++ oldv.render ++ ")")
  | .obj ne =>
    match oldv with
    | .obj oe => assertJsonNewer ne oe key
    | _ => .ok []
end

mutual
/-- Well-formedness of a JSON value as the image of a JS value: object keys
are pairwise distinct at every nesting level. -/
def wfVal : JsonValue → Bool
  | .str _ => true
  | .num _ => true
  | .bool _ => true
  | .obj es => wfEntries es
/-- Well-formedness of an object body: keys are pairwise distinct and every
value is well-formed. -/
def wfEntries : List (String × JsonValue) → Bool
  | [] => true
  | (k, v) :: rest => !(rest.any (fun q => q.1 == k)) && wfVal v && wfEntries rest
end

theorem newVersionString_eq_nextPatch (v : Semver) (hmaj : v.major = 0) (hmin : v.minor = 1) :
    newVersionString v = Semver.versionString { Semver.nextPatch v with tail := "" } := by
  obtain ⟨ma, mi, pa, tl⟩ := v
  simp only at hmaj hmin
  subst hmaj hmin
  show "0.1." ++ toString (pa + 1) =
    ((((toString (0 : Nat) ++ ".") ++ toString (1 : Nat)) ++ ".") ++ toString (pa + 1)) ++ ""
  rw [string_append_empty]
  have hpre : ((toString (0 : Nat) ++ ".") ++ toString (1 : Nat)) ++ "." = "0.1." := by decide
  rw [hpre]

/-- C1 (amended): for a remote state whose highest published version equals
the version tagged latest (which the preceding assertions force to have
major 0 and minor 1), the decision engine returns PublishNew of the
next-patch version, with major and minor preserved and the patch incremented,
if and only if the last published content hash differs from the fresh
registry content hash AND strictly more than seven days have elapsed since
the remote last-modified time.  (The claim said at least seven days; the
source test `days > 7` is strict, so the boundary point of exactly seven
days does not publish.)  The opaque version tail is dropped because the
source rebuilds the new version string from the numeric components. -/
theorem c1_publishNew_iff (info : ProcessedNpmInfo) (hash : String) (now : Int)
    (hhv : info.highestSemverVersion = info.npmVersion)
    (hmaj : info.npmVersion.major = 0) (hmin : info.npmVersion.minor = 1) :
    publishDecision info hash now =
        .publishNew (Semver.versionString { Semver.nextPatch info.npmVersion with tail := "" })
      ↔ (info.npmContentHash ≠ hash ∧ 7 * millisecondsPerDay < now - info.lastModified) := by
  have heq : info.highestSemverVersion.equals info.npmVersion = true := by
    simp [Semver.equals, hhv]
  rw [publishDecision, heq]
  rw [← newVersionString_eq_nextPatch info.npmVersion hmaj hmin]
  by_cases hh : info.npmContentHash = hash
  · simp [hh, isSevenDaysAfter]
  · by_cases ht : 7 * millisecondsPerDay < now - info.lastModified
    · simp [hh, ht, isSevenDaysAfter]
    · simp [hh, ht, isSevenDaysAfter]

/-- Witness for c1_publishNew_iff at a concrete remote state eight days
stale with a changed hash. -/
theorem c1_publishNew_iff_witness :
    publishDecision ⟨⟨0, 1, 6, ""⟩, ⟨0, 1, 6, ""⟩, "hashA", 0⟩ "hashB" (8 * millisecondsPerDay) =
      .publishNew "0.1.7" := by
  have h := (c1_publishNew_iff ⟨⟨0, 1, 6, ""⟩, ⟨0, 1, 6, ""⟩, "hashA", 0⟩ "hashB"
      (8 * millisecondsPerDay) rfl rfl rfl).mpr ⟨by decide, by decide⟩
  have hs : Semver.versionString { Semver.nextPatch (⟨0, 1, 6, ""⟩ : Semver) with tail := "" } = "0.1.7" := by decide
  rw [hs] at h
  exact h

/-- C1 counterexample: with the highest version equal to the latest version,
a changed content hash and a last-modified time exactly seven days old, at
least seven days have elapsed, yet the decision is NoOp rather than
PublishNew, because the source test is strictly more than seven days. -/
theorem c1_counterexample :
    publishDecision ⟨⟨0, 1, 6, ""⟩, ⟨0, 1, 6, ""⟩, "hashA", 0⟩ "hashB" (7 * millisecondsPerDay) =
        .noOp "Was modified less than a week ago"
      ∧ ("hashA" : String) ≠ "hashB"
      ∧ 7 * millisecondsPerDay - (0 : Int) ≥ 7 * millisecondsPerDay := by
  refine ⟨by decide, by decide, by decide⟩

/-- C4: whenever the highest published version differs from the version
tagged latest, the decision engine returns RePromote of the highest version
regardless of content hash or elapsed time, and the channel workflow on that
branch performs the subset validation and then moves the latest tag, with no
publish and no cool-down sleep. -/
theorem c4_rePromote (info : ProcessedNpmInfo) (hash : String) (now : Int)
    (hne : info.highestSemverVersion ≠ info.npmVersion) :
    publishDecision info hash now = .rePromote info.highestSemverVersion
      ∧ publishToRegistry info hash now =
          [.generate, .validateSubset, .tag info.highestSemverVersion.versionString "latest"] := by
  have heq : info.highestSemverVersion.equals info.npmVersion = false := by
    simp [Semver.equals, hne]
  constructor
  · rw [publishDecision, heq]
    rfl
  · rw [publishToRegistry, publishDecision, heq]
    rfl

/-- Witness for c4_rePromote with highest version 0.1.7 and latest 0.1.6. -/
theorem c4_rePromote_witness :
    publishDecision ⟨⟨0, 1, 6, ""⟩, ⟨0, 1, 7, ""⟩, "hashA", 0⟩ "hashA" 0 = .rePromote ⟨0, 1, 7, ""⟩
      ∧ publishToRegistry ⟨⟨0, 1, 6, ""⟩, ⟨0, 1, 7, ""⟩, "hashA", 0⟩ "hashA" 0 =
          [.generate, .validateSubset, .tag "0.1.7" "latest"] := by
  have h := c4_rePromote ⟨⟨0, 1, 6, ""⟩, ⟨0, 1, 7, ""⟩, "hashA", 0⟩ "hashA" 0 (by decide)
  have hs : Semver.versionString (⟨0, 1, 7, ""⟩ : Semver) = "0.1.7" := by decide
  constructor
  · exact h.1
  · rw [← hs]
    exact h.2

/-- C8: when the highest published version equals the latest version and the
PublishNew condition fails, the decision is NoOp with a reason string that
distinguishes an unchanged content hash from a too-recent modification (the
two reason strings differ), and the channel workflow still runs the validate
step against the locally generated artifact. -/
theorem c8_noOp (info : ProcessedNpmInfo) (hash : String) (now : Int)
    (hhv : info.highestSemverVersion = info.npmVersion)
    (hnot : info.npmContentHash = hash ∨ isSevenDaysAfter now info.lastModified = false) :
    publishDecision info hash now =
        .noOp (if info.npmContentHash == hash then "No new packages published"
               else "Was modified less than a week ago")
      ∧ ("No new packages published" : String) ≠ "Was modified less than a week ago"
      ∧ publishToRegistry info hash now = [.generate, .validate] := by
  have heq : info.highestSemverVersion.equals info.npmVersion = true := by
    simp [Semver.equals, hhv]
  have hcond : (info.npmContentHash != hash && isSevenDaysAfter now info.lastModified) = false := by
    rcases hnot with hh | ht
    · simp [hh]
    · simp [ht]
  refine ⟨?_, by decide, ?_⟩
  · rw [publishDecision, heq, hcond]
    rfl
  · rw [publishToRegistry, publishDecision, heq, hcond]
    rfl

/-- Witness for c8_noOp in the unchanged-hash case. -/
theorem c8_noOp_witness :
    publishDecision ⟨⟨0, 1, 6, ""⟩, ⟨0, 1, 6, ""⟩, "hashA", 0⟩ "hashA" 0 =
        .noOp "No new packages published"
      ∧ publishToRegistry ⟨⟨0, 1, 6, ""⟩, ⟨0, 1, 6, ""⟩, "hashA", 0⟩ "hashA" 0 =
          [.generate, .validate] := by
  have h := c8_noOp ⟨⟨0, 1, 6, ""⟩, ⟨0, 1, 6, ""⟩, "hashA", 0⟩ "hashA" 0 rfl (Or.inl rfl)
  refine ⟨?_, h.2.2⟩
  have := h.1
  simpa using this

/-- C2 counterexample: the claim requires two distinct channels, a primary
whose publish failure is swallowed and a secondary/mirror carrying
publishConfig.  No such pair exists in the code: the only channel whose
isolated failure is swallowed is github, and github is also the only channel
whose generated manifest carries publishConfig, so the swallowed channel and
the publishConfig channel coincide under every assignment. -/
theorem c2_counterexample :
    ¬ ∃ primary secondary : RegistryName, primary ≠ secondary
        ∧ swallowedChannel primary = true
        ∧ manifestHasPublishConfig secondary = true := by
  decide

/-- C2 (amended): a failure of the github channel publish step, and the
github channel is exactly the one whose generated manifest carries
publishConfig, is caught at the per-channel boundary, logged, and swallowed,
so the npm channel still attempts its own workflow and decides the overall
outcome; a failure of the npm channel propagates to the top level uncaught. -/
theorem c2_channel_handling (attempt : RegistryName → Except String Unit) (e : String) :
    (∀ name ver hash, (generatePackageJson name .github ver hash).publishConfig.isSome = true
        ∧ (generatePackageJson name .npm ver hash).publishConfig = none)
      ∧ (attempt .github = .error e →
          publishRegistryChannels attempt =
            (match attempt .npm with
             | .ok _ => .ok ["publishing to github failed: " ++ e]
             | .error e2 => .error e2))
      ∧ (attempt .npm = .error e → publishRegistryChannels attempt = .error e) := by
  refine ⟨fun name ver hash => ⟨rfl, rfl⟩, ?_, ?_⟩
  · intro hg
    rw [publishRegistryChannels, hg]
  · intro hn
    cases hg : attempt .github <;> rw [publishRegistryChannels, hg, hn]

/-- Witness for c2_channel_handling: a github failure is logged and the run
still succeeds, while an npm failure makes the whole run fail. -/
theorem c2_channel_handling_witness :
    publishRegistryChannels
        (fun c => match c with | .github => .error "boom" | .npm => .ok ()) =
      .ok ["publishing to github failed: boom"]
    ∧ publishRegistryChannels
        (fun c => match c with | .github => .ok () | .npm => .error "npmboom") =
      .error "npmboom" := by
  constructor
  · exact (c2_channel_handling
      (fun c => match c with | .github => .error "boom" | .npm => .ok ()) "boom").2.1 rfl
  · exact (c2_channel_handling
      (fun c => match c with | .github => .ok () | .npm => .error "npmboom") "npmboom").2.2 rfl

/-- C3 counterexample: a package whose cached dist-tag map has no latest
entry is processed by the registry builder into an output tag map that also
has no latest entry, refuting the unconditional claim that the filtered map
always includes latest. -/
theorem c3_counterexample :
    generateRegistry [⟨"p", "p"⟩] (fun _ => some [("next", "1.0.0")]) =
        .ok ⟨[("p", [("next", "1.0.0")])]⟩
      ∧ (filterTags [("next", "1.0.0")]).lookup "latest" = none := by
  refine ⟨rfl, rfl⟩

/-- C3 (amended): every entry of a successfully built registry is the
filtered dist-tag map of the cached tags of its package; whenever the input
dist-tag map has a latest entry, the filtered map keeps it, and keeps every
other tag exactly when its version differs from the version latest points
to; in particular the input map (latest 1.0.0, next 1.1.0, beta 1.0.0)
produces exactly (latest 1.0.0, next 1.1.0). -/
theorem c3_filterTags (tags : List (String × String)) (lv : String)
    (hlat : tags.lookup "latest" = some lv) :
    (∀ typings cache reg, generateRegistry typings cache = .ok reg →
        ∀ e ∈ reg.entries, ∃ dist, e.2 = filterTags dist)
      ∧ ("latest", lv) ∈ filterTags tags
      ∧ (∀ t v, t ≠ "latest" → ((t, v) ∈ filterTags tags ↔ (t, v) ∈ tags ∧ v ≠ lv))
      ∧ filterTags [("latest", "1.0.0"), ("next", "1.1.0"), ("beta", "1.0.0")] =
          [("latest", "1.0.0"), ("next", "1.1.0")] := by
  refine ⟨?_, ?_, ?_, by decide⟩
  · intro typings cache reg hok e he
    rw [generateRegistry] at hok
    split at hok
    · exact absurd hok (by simp)
    · cases hok
      simp only [List.mem_map] at he
      obtain ⟨t, _, hte⟩ := he
      exact ⟨(cache t.fullEscapedNpmName).getD [], by rw [← hte]⟩
  · rw [filterTags]
    refine List.mem_filter.mpr ⟨lookup_mem hlat, by simp⟩
  · intro t v hne
    rw [filterTags]
    rw [List.mem_filter]
    have hbt : (t == "latest") = false := by simp [hne]
    simp [hbt, hlat]

/-- Witness for c3_filterTags at the concrete dist-tag map of the claim. -/
theorem c3_filterTags_witness :
    ("latest", "1.0.0") ∈ filterTags [("latest", "1.0.0"), ("next", "1.1.0"), ("beta", "1.0.0")]
    ∧ (("next", "1.1.0") ∈ filterTags [("latest", "1.0.0"), ("next", "1.1.0"), ("beta", "1.0.0")]
        ↔ ("next", "1.1.0") ∈ ([("latest", "1.0.0"), ("next", "1.1.0"), ("beta", "1.0.0")] : List (String × String))
          ∧ ("1.1.0" : String) ≠ "1.0.0") := by
  have h := c3_filterTags [("latest", "1.0.0"), ("next", "1.1.0"), ("beta", "1.0.0")] "1.0.0" rfl
  exact ⟨h.2.1, h.2.2.1 "next" "1.1.0" (by decide)⟩

theorem fetch_ok_next (info : NpmInfo) (p : ProcessedNpmInfo)
    (h : fetchAndProcessNpmInfo info = .ok p) :
    info.distTags.lookup "next" = some p.highestSemverVersion.versionString := by
  rw [fetchAndProcessNpmInfo] at h
  iterate 6 (all_goals try split at h)
  all_goals try exact Except.noConfusion h
  cases h
  assumption

/-- C9: a run that passes the entry checks satisfies both invariants, namely
the version tagged latest has major 0 and minor 1 and the next dist-tag
equals the highest published version; conversely, once the fetch itself
succeeded (which already enforces the next invariant through its own
assertion), a latest version with major 0 and minor 1 makes the assertion
failure branches unreachable, so the checks succeed. -/
theorem c9_assertions :
    (∀ info p, publishRegistryInfoChecks info = .ok p →
        (p.npmVersion.major = 0 ∧ p.npmVersion.minor = 1)
          ∧ info.distTags.lookup "next" = some p.highestSemverVersion.versionString)
      ∧ (∀ info p, fetchAndProcessNpmInfo info = .ok p →
          p.npmVersion.major = 0 → p.npmVersion.minor = 1 →
          publishRegistryInfoChecks info = .ok p) := by
  constructor
  · intro info p h
    cases hf : fetchAndProcessNpmInfo info with
    | error e =>
      rw [publishRegistryInfoChecks, hf] at h
      exact Except.noConfusion h
    | ok q =>
      rw [publishRegistryInfoChecks, hf] at h
      split at h
      · next e heq => exact Except.noConfusion heq
      · next q2 heq =>
        injection heq with hq2
        subst hq2
        split at h
        · split at h
          · injection h with hqp
            subst hqp
            exact ⟨⟨by assumption, by assumption⟩, fetch_ok_next info q hf⟩
          · exact Except.noConfusion h
        · exact Except.noConfusion h
  · intro info p hf h0 h1
    rw [publishRegistryInfoChecks, hf]
    simp [h0, h1]

/-- Witness for c9_assertions at a concrete healthy remote state: latest
0.1.6, next 0.1.7, both versions published. -/
theorem c9_assertions_witness :
    publishRegistryInfoChecks
        ⟨[("latest", "0.1.6"), ("next", "0.1.7")],
         [("0.1.6", some "hashA"), ("0.1.7", some "hashB")], 0⟩ =
      .ok ⟨⟨0, 1, 6, ""⟩, ⟨0, 1, 7, ""⟩, "hashA", 0⟩
    ∧ ([("latest", "0.1.6"), ("next", "0.1.7")] : List (String × String)).lookup "next" =
        some (Semver.versionString ⟨0, 1, 7, ""⟩) := by
  constructor
  · exact c9_assertions.2
      ⟨[("latest", "0.1.6"), ("next", "0.1.7")], [("0.1.6", some "hashA"), ("0.1.7", some "hashB")], 0⟩
      ⟨⟨0, 1, 6, ""⟩, ⟨0, 1, 7, ""⟩, "hashA", 0⟩ rfl rfl rfl
  · exact (c9_assertions.1
      ⟨[("latest", "0.1.6"), ("next", "0.1.7")], [("0.1.6", some "hashA"), ("0.1.7", some "hashB")], 0⟩
      ⟨⟨0, 1, 6, ""⟩, ⟨0, 1, 7, ""⟩, "hashA", 0⟩ rfl).2

theorem validateIsSubsetGo_isOk (notNeeded : List NotNeededPackage) (expected : Registry) :
    ∀ l : List (String × List (String × String)),
      exceptIsOk (validateIsSubsetGo notNeeded expected l) = true ↔
        ∀ key ∈ l.map Prod.fst,
          key ∈ expected.entries.map Prod.fst ∨ key ∈ notNeeded.map NotNeededPackage.name := by
  intro l
  induction l with
  | nil => simp [validateIsSubsetGo, exceptIsOk]
  | cons hd rest ih =>
    obtain ⟨key, tags⟩ := hd
    rw [validateIsSubsetGo]
    by_cases hc : (!(expected.entries.any (fun p => p.1 == key))
        && !(notNeeded.any (fun p => p.name == key))) = true
    · rw [if_pos hc]
      simp only [Bool.and_eq_true, Bool.not_eq_true'] at hc
      obtain ⟨h1, h2⟩ := hc
      constructor
      · intro habs
        exact absurd habs (by simp [exceptIsOk])
      · intro hall
        exfalso
        rcases hall key (by simp) with hk | hk
        · rw [List.mem_map] at hk
          obtain ⟨pp, hpp, hke⟩ := hk
          have ht : expected.entries.any (fun p => p.1 == key) = true :=
            List.any_eq_true.mpr ⟨pp, hpp, by simp [hke]⟩
          rw [ht] at h1
          exact Bool.noConfusion h1
        · rw [List.mem_map] at hk
          obtain ⟨pp, hpp, hke⟩ := hk
          have ht : notNeeded.any (fun p => p.name == key) = true :=
            List.any_eq_true.mpr ⟨pp, hpp, by simp [hke]⟩
          rw [ht] at h2
          exact Bool.noConfusion h2
    · rw [if_neg hc]
      have hcf : (!(expected.entries.any (fun p => p.1 == key))
          && !(notNeeded.any (fun p => p.name == key))) = false := by
        simpa using hc
      rw [ih]
      constructor
      · intro h k hk
        rcases (by simpa using hk :
            k = key ∨ k ∈ rest.map Prod.fst) with hke | hkr
        · subst hke
          rcases Bool.and_eq_false_iff.mp hcf with hx | hx
          · have h1t : expected.entries.any (fun p => p.1 == k) = true := by
              simpa using hx
            obtain ⟨pp, hpp, hb⟩ := List.any_eq_true.mp h1t
            exact Or.inl (List.mem_map.mpr ⟨pp, hpp, by simpa using hb⟩)
          · have h2t : notNeeded.any (fun p => p.name == k) = true := by
              simpa using hx
            obtain ⟨pp, hpp, hb⟩ := List.any_eq_true.mp h2t
            exact Or.inr (List.mem_map.mpr ⟨pp, hpp, by simpa using hb⟩)
        · exact h k hkr
      · intro h k hk
        exact h k (by simp [hk])

/-- C10: the subset validation of the re-promote path succeeds exactly when
every entry key of the installed registry is a key of the locally generated
registry or the name of a not-needed package; it inspects keys only, never
version strings or dist-tag values, so an installed registry whose versions
are strictly behind the locally generated one still passes, as the concrete
conjunct shows. -/
theorem c10_validateIsSubset (notNeeded : List NotNeededPackage) (actual expected : Registry) :
    (exceptIsOk (validateIsSubset notNeeded actual expected) = true ↔
        ∀ key ∈ actual.entries.map Prod.fst,
          key ∈ expected.entries.map Prod.fst ∨ key ∈ notNeeded.map NotNeededPackage.name)
      ∧ exceptIsOk (validateIsSubset [] ⟨[("a", [("latest", "1.0.0")])]⟩
          ⟨[("a", [("latest", "9.9.9")])]⟩) = true := by
  refine ⟨?_, by decide⟩
  rw [validateIsSubset]
  exact validateIsSubsetGo_isOk notNeeded expected actual.entries

theorem semverStringCond_refl (s : String) : semverStringCond s s = true := by
  unfold semverStringCond
  cases h : Semver.tryParse s with
  | none => simp [jsStringLe, strLtB_irrefl]
  | some v => simp [Semver.equals]

theorem lookup_of_wf : ∀ (es : List (String × JsonValue)) (k : String) (v : JsonValue),
    wfEntries es = true → (k, v) ∈ es → es.lookup k = some v := by
  intro es
  induction es with
  | nil => intro k v _ hm; simp at hm
  | cons hd tl ih =>
    intro k v hwf hm
    obtain ⟨k2, v2⟩ := hd
    rw [wfEntries] at hwf
    simp only [Bool.and_eq_true, Bool.not_eq_true'] at hwf
    obtain ⟨⟨hnk, _⟩, hwtl⟩ := hwf
    rcases List.mem_cons.mp hm with heq | hmem
    · cases heq
      simp [List.lookup]
    · by_cases hkk : k = k2
      · exfalso
        subst hkk
        have ht : tl.any (fun q => q.1 == k) = true :=
          List.any_eq_true.mpr ⟨(k, v), hmem, by simp⟩
        rw [ht] at hnk
        exact Bool.noConfusion hnk
      · have hne : (k == k2) = false := by simp [hkk]
        rw [List.lookup, hne]
        exact ih k v hwtl hmem

mutual
theorem checkValue_self (v : JsonValue) (key parent : String) (hwf : wfVal v = true) :
    exceptIsOk (checkValue v v key parent) = true :=
  match v, hwf with
  | .str s, _ => by simp [checkValue, semverStringCond_refl, exceptIsOk]
  | .num n, _ => by simp [checkValue, exceptIsOk]
  | .bool b, _ => by simp [checkValue, exceptIsOk]
  | .obj es, hwf => by
    rw [wfVal] at hwf
    exact assertJsonNewer_self es es key hwf (fun k v hm => lookup_of_wf es k v hwf hm)
termination_by sizeOf v

theorem assertJsonNewer_self (older newer : List (String × JsonValue)) (parent : String)
    (hwf : wfEntries older = true)
    (hlk : ∀ k v, (k, v) ∈ older → newer.lookup k = some v) :
    exceptIsOk (assertJsonNewer newer older parent) = true :=
  match older, hwf, hlk with
  | [], _, _ => by simp [assertJsonNewer, exceptIsOk]
  | (key, oldv) :: rest, hwf, hlk => by
    rw [wfEntries] at hwf
    simp only [Bool.and_eq_true, Bool.not_eq_true'] at hwf
    obtain ⟨⟨_, hwv⟩, hwrest⟩ := hwf
    have hhead : newer.lookup key = some oldv := hlk key oldv (List.mem_cons_self _ _)
    have hrest : exceptIsOk (assertJsonNewer newer rest parent) = true :=
      assertJsonNewer_self rest newer parent hwrest
        (fun k v hm => hlk k v (List.mem_cons_of_mem _ hm))
    have hcv : exceptIsOk (checkValue oldv oldv key parent) = true :=
      checkValue_self oldv key parent hwv
    obtain ⟨l1, hc⟩ := exceptIsOk_eq_true.mp hcv
    obtain ⟨l2, hr⟩ := exceptIsOk_eq_true.mp hrest
    rw [assertJsonNewer, hhead]
    simp [hc, hr, exceptIsOk]
termination_by sizeOf older
end

/-- C5: the consistency comparator is reflexive: applied to two copies of the
same JSON document (whose object keys are distinct at every level, as they
are for any actual JS object) it never fails. -/
theorem c5_reflexive (entries : List (String × JsonValue)) (hwf : wfEntries entries = true) :
    exceptIsOk (assertJsonNewer entries entries "") = true :=
  assertJsonNewer_self entries entries "" hwf
    (fun k v hm => lookup_of_wf entries k v hwf hm)

/-- Witness for c5_reflexive on a document with every shape: a version
string, a non-version string, a number, a boolean and a nested object. -/
theorem c5_reflexive_witness :
    wfEntries [("ver", .str "1.2.3"), ("name", .str "alpha"), ("count", .num 5),
        ("flag", .bool true), ("nested", .obj [("inner", .str "2.0.0")])] = true
    ∧ exceptIsOk (assertJsonNewer
        [("ver", .str "1.2.3"), ("name", .str "alpha"), ("count", .num 5),
         ("flag", .bool true), ("nested", .obj [("inner", .str "2.0.0")])]
        [("ver", .str "1.2.3"), ("name", .str "alpha"), ("count", .num 5),
         ("flag", .bool true), ("nested", .obj [("inner", .str "2.0.0")])] "") = true :=
  ⟨by decide, c5_reflexive
    [("ver", .str "1.2.3"), ("name", .str "alpha"), ("count", .num 5),
     ("flag", .bool true), ("nested", .obj [("inner", .str "2.0.0")])] (by decide)⟩

/-- C6: on a key present in both documents with string values on both sides,
the comparator parses both sides as versions; when both parse it succeeds
exactly when the newer version is greater than or equal to the older one
under the version comparison, and when either side fails to parse it
succeeds exactly when the newer string is greater than or equal to the older
one under native string ordering; otherwise it fails with the regression
assertion. -/
theorem c6_string_rule (key parent ns os : String) :
    exceptIsOk (assertJsonNewer [(key, .str ns)] [(key, .str os)] parent) = true ↔
      (match Semver.tryParse ns, Semver.tryParse os with
       | some nv, some ov => nv = ov ∨ nv.greaterThan ov = true
       | _, _ => jsStringLe os ns = true) := by
  have hkey : ([(key, JsonValue.str ns)].lookup key) = some (JsonValue.str ns) := by
    simp [List.lookup]
  have hval : exceptIsOk (assertJsonNewer [(key, .str ns)] [(key, .str os)] parent) =
      semverStringCond ns os := by
    cases hc : semverStringCond ns os <;>
      simp [assertJsonNewer, checkValue, hkey, hc, exceptIsOk]
  rw [hval]
  unfold semverStringCond
  cases hn : Semver.tryParse ns <;> cases ho : Semver.tryParse os
  · simp
  · simp
  · simp
  · simp [Semver.equals, Bool.or_eq_true, or_comm]

/-- C7: a key present in the older document but absent from the newer one
never makes the comparator fail: success is unchanged when all such keys are
removed from the older document, and in particular the comparator succeeds
for the older document (a 5, b true) against the newer document (a 5) in
which b was dropped. -/
theorem c7_absent_key_tolerated :
    (∀ (newer older : List (String × JsonValue)) (parent : String),
        exceptIsOk (assertJsonNewer newer older parent) =
          exceptIsOk (assertJsonNewer newer
            (older.filter (fun p => (newer.lookup p.1).isSome)) parent))
      ∧ exceptIsOk (assertJsonNewer [("a", .num 5)] [("a", .num 5), ("b", .bool true)] "") = true := by
  constructor
  · intro newer older parent
    induction older with
    | nil => rfl
    | cons hd rest ih =>
      obtain ⟨key, oldv⟩ := hd
      cases hl : newer.lookup key with
      | none =>
        have hfilter : ((key, oldv) :: rest).filter (fun p => (newer.lookup p.1).isSome) =
            rest.filter (fun p => (newer.lookup p.1).isSome) := by
          simp [List.filter_cons, hl]
        rw [hfilter, assertJsonNewer, hl, ← ih]
        cases hres : assertJsonNewer newer rest parent <;> simp [exceptIsOk]
      | some newv =>
        have hfilter : ((key, oldv) :: rest).filter (fun p => (newer.lookup p.1).isSome) =
            (key, oldv) :: rest.filter (fun p => (newer.lookup p.1).isSome) := by
          simp [List.filter_cons, hl]
        rw [hfilter]
        cases hcv : checkValue newv oldv key parent with
        | error e =>
          simp [assertJsonNewer, hl, hcv, exceptIsOk]
        | ok l1 =>
          cases hres : assertJsonNewer newer rest parent with
          | error e1 =>
            cases hresf : assertJsonNewer newer
                (rest.filter (fun p => (newer.lookup p.1).isSome)) parent with
            | error e2 => simp [assertJsonNewer, hl, hcv, hres, hresf, exceptIsOk]
            | ok l2 =>
              rw [hres, hresf] at ih
              simp [exceptIsOk] at ih
          | ok l1r =>
            cases hresf : assertJsonNewer newer
                (rest.filter (fun p => (newer.lookup p.1).isSome)) parent with
            | error e2 =>
              rw [hres, hresf] at ih
              simp [exceptIsOk] at ih
            | ok l2 => simp [assertJsonNewer, hl, hcv, hres, hresf, exceptIsOk]
  · decide
